import Mathlib

/-!
Verification of the Effective-Days classification-and-weighting engine
(`src/app.py`).  The Python source is shallowly embedded below: pandas
frames become lists of records, pandas medians become an explicit
`median` over `ℚ`, and the module-level reporting glue becomes an
`Except`-valued function.  Korean category names from the source are
rendered with the spec's English enum, in the source's `CATS` order:
평일_1 = WEEKDAY_MIDWEEK, 평일_2 = WEEKDAY_EDGE, 토요일 = SATURDAY,
일요일 = SUNDAY, 공휴일_대체 = PUBLIC_HOLIDAY, 명절_설날 = LUNAR_NEW_YEAR,
명절_추석 = MID_AUTUMN.
-/

namespace EffectiveDays

/-- A calendar date as carried by the `날짜` column (year, month, day). -/
structure Date where
  year : ℕ
  month : ℕ
  day : ℕ
deriving DecidableEq, Repr

/-- The seven day-type categories (source constant `CATS`). -/
inductive Cat where
  | WEEKDAY_MIDWEEK   -- 평일_1 (화·수·목)
  | WEEKDAY_EDGE      -- 평일_2 (월·금)
  | SATURDAY          -- 토요일
  | SUNDAY            -- 일요일
  | PUBLIC_HOLIDAY    -- 공휴일_대체
  | LUNAR_NEW_YEAR    -- 명절_설날
  | MID_AUTUMN        -- 명절_추석
deriving DecidableEq, Repr

/-- Source list `CATS`, in source order. -/
def CATS : List Cat :=
  [Cat.WEEKDAY_MIDWEEK, Cat.WEEKDAY_EDGE, Cat.SATURDAY, Cat.SUNDAY,
   Cat.PUBLIC_HOLIDAY, Cat.LUNAR_NEW_YEAR, Cat.MID_AUTUMN]

/-- Source dict `DEFAULT_WEIGHTS` (fallback weights when no sample exists). -/
def DEFAULT_WEIGHTS : Cat → ℚ
  | Cat.WEEKDAY_MIDWEEK => 1
  | Cat.WEEKDAY_EDGE => 9713/10000
  | Cat.SATURDAY => 8566/10000
  | Cat.SUNDAY => 7651/10000
  | Cat.PUBLIC_HOLIDAY => 8410/10000
  | Cat.LUNAR_NEW_YEAR => 8381/10000
  | Cat.MID_AUTUMN => 7990/10000

/-- Source constant `CAP_HOLIDAY = 0.90` (휴일·명절 상한). -/
def CAP_HOLIDAY : ℚ := 9/10

/-- Keyword lists from the source dict `HOL_KW` ("seol" entry). -/
def HOL_KW_seol : List String := ["설", "설날", "seol"]

/-- Keyword lists from the source dict `HOL_KW` ("chu" entry). -/
def HOL_KW_chu : List String := ["추", "추석", "chuseok", "chu"]

/-- Keyword lists from the source dict `HOL_KW` ("sub" entry, unused by the logic). -/
def HOL_KW_sub : List String := ["대체", "대체공휴", "substitute"]

/-- Source constant `TEMP_KW` (temporary-public-holiday keywords). -/
def TEMP_KW : List String := ["임시", "임시공휴", "임시공휴일", "temporary"]

/-- Character-sequence matching at the start of `hay` (helper for `seq_found`). -/
def seq_starts : List Char → List Char → Bool
  | [], _ => true
  | _ :: _, [] => false
  | a :: as_, b :: bs => a == b && seq_starts as_ bs

/-- Whether `needle` occurs as a contiguous subsequence of `hay`
(the semantics of Python's `k in s` on strings). -/
def seq_found (needle : List Char) : List Char → Bool
  | [] => seq_starts needle []
  | b :: bs => seq_starts needle (b :: bs) || seq_found needle bs

/-- Lower-casing of a character sequence (`str.lower()` on the underlying
characters). -/
def lower_chars (l : List Char) : List Char := l.map Char.toLower

/-- Source `contains_any`: case-insensitive substring test against a keyword list. -/
def contains_any (s : String) (keys : List String) : Bool :=
  keys.any fun k => seq_found (lower_chars k.data) (lower_chars s.data)

/-- Source `in_lny_window`: `(month == 1 and day >= 20) or (month == 2 and day <= 20)`. -/
def in_lny_window (month day : ℕ) : Bool :=
  decide ((month = 1 ∧ 20 ≤ day) ∨ (month = 2 ∧ day ≤ 20))

/-- The weekday string derived in `normalize_calendar` from
`dt.dayofweek.map({0:"월",…,6:"일"})`. -/
def yoil (d : Fin 7) : String :=
  match d with
  | 0 => "월" | 1 => "화" | 2 => "수" | 3 => "목" | 4 => "금" | 5 => "토" | 6 => "일"

/-- One normalized calendar day: the columns of the normalized frame that the
classifier and weight estimator read.  `pub`/`fest` are the `공휴일여부`/`명절여부`
columns after `to_bool` (`False` when the column is absent); `volume` is the
value of the detected supply column (only read when such a column exists). -/
structure CalDay where
  date : Date
  dow : Fin 7
  gubun : String      -- 구분 free-text hint
  pub : Bool          -- 공휴일여부
  fest : Bool         -- 명절여부
  volume : ℚ          -- supply measurement
deriving DecidableEq, Repr

/-- Tail of `base_category`: the weekend/weekday rules on the weekday string,
with the source's final `평일_1` fallback. -/
def weekday_rule (y : String) : Cat :=
  if y == "토" then Cat.SATURDAY
  else if y == "일" then Cat.SUNDAY
  else if y == "화" || y == "수" || y == "목" then Cat.WEEKDAY_MIDWEEK
  else if y == "월" || y == "금" then Cat.WEEKDAY_EDGE
  else Cat.WEEKDAY_MIDWEEK

/-- Source `base_category` (1차 분류): the row-wise primary classification.
In the source, `g`/`y`/`m`/`day`/`has_seol`/`has_chu`/`is_pub` are the local
names for the expressions written inline below. -/
def base_category (r : CalDay) : Cat :=
  if contains_any r.gubun HOL_KW_seol then
    (if in_lny_window r.date.month r.date.day &&
        !(decide (r.date.month = 1 ∧ r.date.day = 1)) then Cat.LUNAR_NEW_YEAR
     else Cat.PUBLIC_HOLIDAY)
  else if contains_any r.gubun HOL_KW_chu then
    (if r.date.month = 9 then Cat.MID_AUTUMN else Cat.PUBLIC_HOLIDAY)
  else if r.fest && (in_lny_window r.date.month r.date.day &&
      !(decide (r.date.month = 1 ∧ r.date.day = 1))) then
    Cat.LUNAR_NEW_YEAR
  else if r.fest && decide (r.date.month = 9) then Cat.MID_AUTUMN
  else if r.pub || contains_any r.gubun TEMP_KW then Cat.PUBLIC_HOLIDAY
  else weekday_rule (yoil r.dow)

/-- Source `sub_reason` (대체휴일 사유): the substitute-holiday reason column,
computed from the primary classification. -/
def sub_reason (r : CalDay) (src : Cat) : Option String :=
  if src ≠ Cat.PUBLIC_HOLIDAY then none
  else if contains_any r.gubun HOL_KW_seol &&
          (in_lny_window r.date.month r.date.day &&
           !(decide (r.date.month = 1 ∧ r.date.day = 1))) then some "설"
  else if contains_any r.gubun HOL_KW_chu && decide (r.date.month = 9) then some "추"
  else none

/-- Source override step 3, first part: January 1st is forced to
`공휴일_대체` with the reason cleared. -/
def jan1_override (r : CalDay) (sr : Cat × Option String) : Cat × Option String :=
  if r.date.month = 1 ∧ r.date.day = 1 then (Cat.PUBLIC_HOLIDAY, none) else sr

/-- Source override step 3, second part: the row mask
`(월==10) & (연.isin([2026, 2027]))`. -/
def oct_mask (r : CalDay) : Bool :=
  decide (r.date.month = 10) && (decide (r.date.year = 2026) || decide (r.date.year = 2027))

/-- Source override step 3, second part: on masked rows, `명절_추석` is
reclassified to `공휴일_대체` and a `추` reason is cleared. -/
def oct_override (r : CalDay) (sr : Cat × Option String) : Cat × Option String :=
  (if oct_mask r && decide (sr.1 = Cat.MID_AUTUMN) then Cat.PUBLIC_HOLIDAY else sr.1,
   if oct_mask r && decide (sr.2 = some "추") then none else sr.2)

/-- The (카테고리_SRC, 대체_사유) pair before the October override
(steps 1–3a of `normalize_calendar`). -/
def pre_oct (r : CalDay) : Cat × Option String :=
  jan1_override r (base_category r, sub_reason r (base_category r))

/-- The final (카테고리_SRC, 대체_사유) pair (steps 1–3 of `normalize_calendar`). -/
def classify_src_reason (r : CalDay) : Cat × Option String :=
  oct_override r (pre_oct r)

/-- Source `cat_for_count` (step 4): substitute holidays with a 설/추 reason are
attributed to the corresponding festival category for counting. -/
def cat_for_count (sr : Cat × Option String) : Cat :=
  if sr.1 = Cat.PUBLIC_HOLIDAY ∧ sr.2 = some "설" then Cat.LUNAR_NEW_YEAR
  else if sr.1 = Cat.PUBLIC_HOLIDAY ∧ sr.2 = some "추" then Cat.MID_AUTUMN
  else sr.1

/-- A fully classified day: the normalized row plus the derived columns
카테고리_SRC, 대체_사유 and 카테고리_CNT (= 카테고리_ED). -/
structure Classified where
  day : CalDay
  src : Cat           -- 카테고리_SRC
  reason : Option String  -- 대체_사유
  cnt : Cat           -- 카테고리_CNT = 카테고리_ED
deriving DecidableEq, Repr

/-- Row-wise classification: steps 1–4 of `normalize_calendar` on one row. -/
def classify (r : CalDay) : Classified :=
  ⟨r, (classify_src_reason r).1, (classify_src_reason r).2,
   cat_for_count (classify_src_reason r)⟩

/-- The parse result of the date cell of one raw row: the date together with
the pandas `dt.dayofweek` value it determines. -/
structure ParsedDate where
  date : Date
  dow : Fin 7
deriving DecidableEq, Repr

/-- One raw input row, as seen after column detection: `parsed` is the result
of `to_date` on the date cell (`none` when parsing failed), `pub`/`fest` are
the hint columns after `to_bool`, `volume` the supply-column value. -/
structure RawRow where
  parsed : Option ParsedDate
  gubun : String
  pub : Bool
  fest : Bool
  volume : ℚ
deriving DecidableEq, Repr

/-- The normalized row built from a raw row whose date parsed
(`d.dropna(subset=["날짜"])` keeps exactly these). -/
def to_calday (r : RawRow) : Option CalDay :=
  r.parsed.map fun p => ⟨p.date, p.dow, r.gubun, r.pub, r.fest, r.volume⟩

/-- Source `normalize_calendar`, restricted to its data content: rows whose
date fails to parse are dropped, every other row is kept (in order, duplicate
dates included — the source performs no deduplication) and classified. -/
def normalize_calendar (rows : List RawRow) : List Classified :=
  (rows.filterMap to_calday).map classify

/-! ### Weight estimation (`compute_weights_monthly`) -/

/-- Insert into a sorted list (helper for `sortQ`). -/
def insertSorted (x : ℚ) : List ℚ → List ℚ
  | [] => [x]
  | y :: ys => if x ≤ y then x :: y :: ys else y :: insertSorted x ys

/-- Ascending insertion sort on rationals (the sort underlying `median`). -/
def sortQ : List ℚ → List ℚ
  | [] => []
  | x :: xs => insertSorted x (sortQ xs)

/-- The pandas/numpy median: middle element for odd length, midpoint of the
two central elements for even length.  (Only ever applied to nonempty lists
by the embedded code; on `[]` it returns `0`.) -/
def median (l : List ℚ) : ℚ :=
  let s := sortQ l
  let n := l.length
  if n % 2 = 1 then s.getD (n / 2) 0
  else (s.getD (n / 2 - 1) 0 + s.getD (n / 2) 0) / 2

/-- `df[df["월"]==m]`: the month-`m` slice of the classified table. -/
def month_slice (days : List Classified) (m : ℕ) : List Classified :=
  days.filter fun r => decide (r.day.date.month = m)

/-- `sub[sub[cat_col]==c]`: rows of a slice whose counting category is `c`. -/
def cat_days (l : List Classified) (c : Cat) : List Classified :=
  l.filter fun r => decide (r.cnt = c)

/-- The volume (supply-column) value of a classified row. -/
def vol (r : Classified) : ℚ := r.day.volume

/-- `base_med`: median volume of the base-category days of month `m`. -/
def base_med (b : Cat) (days : List Classified) (m : ℕ) : ℚ :=
  median ((cat_days (month_slice days m) b).map vol)

/-- The sample rows used for the category-`c` ratio of a month slice: when
`ignore_substitute_in_weights` is on and `c` is a festival category, rows whose
카테고리_SRC is `공휴일_대체` (the 설*/추* samples) are excluded. -/
def sample_rows (ig : Bool) (sub : List Classified) (c : Cat) : List Classified :=
  if ig = true ∧ (c = Cat.LUNAR_NEW_YEAR ∨ c = Cat.MID_AUTUMN) then
    (cat_days sub c).filter fun r => decide (r.src ≠ Cat.PUBLIC_HOLIDAY)
  else cat_days sub c

/-- One cell of the raw monthly weight table `W` (before the fallback fill):
`none` models `np.nan`.  Mirrors the three branches of the month loop of
`compute_weights_monthly`. -/
def month_row (hs ig : Bool) (b : Cat) (days : List Classified) (m : ℕ) (c : Cat) :
    Option ℚ :=
  let sub := month_slice days m
  if sub = [] then none
  else if hs = false ∨ cat_days sub b = [] then (if c = b then some 1 else none)
  else if c = b then some 1
  else
    let bm := base_med b days m
    let s := (sample_rows ig sub c).map vol
    if s ≠ [] ∧ 0 < bm then some (median s / bm) else none

/-- The clamped global fallback `global_med`: the nan-median of the known
monthly ratios of `c` (the per-category `DEFAULT_WEIGHTS` entry when none is
known), clamped to `cap` for the three holiday-family categories. -/
def global_fallback (hs ig : Bool) (b : Cat) (cap : ℚ) (days : List Classified)
    (c : Cat) : ℚ :=
  let known := (List.range' 1 12).filterMap fun m => month_row hs ig b days m c
  let g0 := if known = [] then DEFAULT_WEIGHTS c else median known
  if c = Cat.PUBLIC_HOLIDAY ∨ c = Cat.LUNAR_NEW_YEAR ∨ c = Cat.MID_AUTUMN then
    (if g0 ≤ cap then g0 else cap)  -- min(global_med[c], cap_holiday)
  else g0

/-- Source `compute_weights_monthly`: returns the filled monthly table
`W_filled` (first component, indexed by month 1–12 and category) and the
global table `global_w` (per-category median of the filled monthly values).
Parameter defaults follow the source signature and its call site:
`base_cat="평일_1"`, `cap_holiday=CAP_HOLIDAY`,
`ignore_substitute_in_weights=True`. -/
def compute_weights_monthly (days : List Classified) (hs : Bool)
    (b : Cat := Cat.WEEKDAY_MIDWEEK) (cap : ℚ := CAP_HOLIDAY)
    (ig : Bool := true) : (ℕ → Cat → ℚ) × (Cat → ℚ) :=
  let Wf : ℕ → Cat → ℚ := fun m c =>
    (month_row hs ig b days m c).getD (global_fallback hs ig b cap days c)
  (Wf, fun c => median ((List.range' 1 12).map fun m => Wf m c))

/-! ### Effective-days aggregation (`effective_days_by_month`) and the
module-level reporting glue -/

/-- The `(연, 월)` slice of the classified table. -/
def slice_ym (days : List Classified) (y m : ℕ) : List Classified :=
  days.filter fun r => decide (r.day.date.year = y ∧ r.day.date.month = m)

/-- The rows counted for category `c` in the `(y, m)` group of
`pivot_table(index=["연","월"], columns=카테고리_CNT, aggfunc="count")`. -/
def count_rows (days : List Classified) (y m : ℕ) (c : Cat) : List Classified :=
  cat_days (slice_ym days y m) c

/-- The per-category day count `일수_c` of a `(y, m)` group. -/
def countCat (days : List Classified) (y m : ℕ) (c : Cat) : ℕ :=
  (count_rows days y m c).length

/-- `월일수`: `groupby(["연","월"])["날짜"].nunique()` — the number of distinct
dates in the `(y, m)` slice. -/
def month_days_count (days : List Classified) (y m : ℕ) : ℕ :=
  (((slice_ym days y m).map fun r => r.day.date).dedup).length

/-- The `(연, 월)` keys present in the table. -/
def ym_keys (days : List Classified) : List (ℕ × ℕ) :=
  ((days.map fun r => (r.day.date.year, r.day.date.month)).dedup)

/-- One row of the monthly summary produced by `effective_days_by_month`:
`monthDays` = 월일수, `counts c` = 일수_c, `eff c` = 적용_c
(= count × monthly weight), `effSum` = 유효일수합 and
`ratio` = 적용_비율(유효/월일수). -/
structure EDRecord where
  year : ℕ
  month : ℕ
  monthDays : ℕ
  counts : Cat → ℕ
  eff : Cat → ℚ
  effSum : ℚ
  ratio : ℚ

/-- An all-zero record (used as the out-of-range default for list indexing). -/
def EDRecord.default0 : EDRecord :=
  ⟨0, 0, 0, fun _ => 0, fun _ => 0, 0, 0⟩

/-- The summary record of one `(y, m)` group. -/
def mk_record (days : List Classified) (Wm : ℕ → Cat → ℚ) (y m : ℕ) : EDRecord :=
  let effSum := (CATS.map fun c => (countCat days y m c : ℚ) * Wm m c).sum
  { year := y
    month := m
    monthDays := month_days_count days y m
    counts := fun c => countCat days y m c
    eff := fun c => (countCat days y m c : ℚ) * Wm m c
    effSum := effSum
    ratio := effSum / (month_days_count days y m : ℚ) }

/-- Source `effective_days_by_month`: one summary record per `(연, 월)` group
of the (range-filtered) classified table. -/
def effective_days_by_month (days : List Classified) (Wm : ℕ → Cat → ℚ) :
    List EDRecord :=
  (ym_keys days).map fun p => mk_record days Wm p.1 p.2

/-- Chronological key of a date (lexicographic in year, month, day). -/
def dateKey (d : Date) : ℕ := d.year * 10000 + d.month * 100 + d.day

/-- Gregorian leap-year test (for the pandas `MonthEnd` bound). -/
def is_leap (y : ℕ) : Bool := decide ((y % 4 = 0 ∧ y % 100 ≠ 0) ∨ y % 400 = 0)

/-- The number of days of month `m` of year `y`
(`end_ts + pd.offsets.MonthEnd(0)` lands on this day). -/
def days_in_month (y m : ℕ) : ℕ :=
  if m = 2 then (if is_leap y then 29 else 28)
  else if m = 4 ∨ m = 6 ∨ m = 9 ∨ m = 11 then 30 else 31

/-- The module-level reporting-range mask and filter:
`mask = (날짜 >= start_ts) & (날짜 <= end_ts + MonthEnd(0))`,
`pred_df = base_df.loc[mask]`. -/
def pred_filter (days : List Classified) (ys ms ye me : ℕ) : List Classified :=
  days.filter fun r =>
    decide (dateKey ⟨ys, ms, 1⟩ ≤ dateKey r.day.date ∧
            dateKey r.day.date ≤ dateKey ⟨ye, me, days_in_month ye me⟩)

/-- The two fatal error kinds of the engine (spec §7); only the empty-range
one is reachable from the embedded fragment. -/
inductive EDError where
  | EmptyResultError
deriving DecidableEq, Repr

/-- The module-level glue around aggregation: filter the classified table to
the reporting range, stop with an error when the range selects no rows
(`if pred_df.empty: st.error(...); st.stop()`), otherwise aggregate. -/
def run_report (days : List Classified) (ys ms ye me : ℕ) (Wm : ℕ → Cat → ℚ) :
    Except EDError (List EDRecord) :=
  let pred := pred_filter days ys ms ye me
  if pred = [] then Except.error EDError.EmptyResultError
  else Except.ok (effective_days_by_month pred Wm)

/-- Convenience constructor of a raw input row with a parseable date. -/
def mkRaw (y m d : ℕ) (w : Fin 7) (g : String) (pb fs : Bool) (v : ℚ) : RawRow :=
  ⟨some ⟨⟨y, m, d⟩, w⟩, g, pb, fs, v⟩

/-! ### Concrete input tables used by the witnesses and counterexamples -/

/-- A January with one base (Tue) day of volume 100 and one public holiday of
volume 200: the direct holiday ratio is 2. -/
def exC1 : List Classified := normalize_calendar
  [mkRaw 2024 1 2 1 "" false false 100, mkRaw 2024 1 10 2 "" true false 200]

/-- The spec's weighting example: a January with 20 `WEEKDAY_MIDWEEK` days of
volume 100 and 4 `WEEKDAY_EDGE` days of volume 95. -/
def exC3w : List Classified := normalize_calendar
  (((List.range 20).map fun i => mkRaw 2024 1 (2 + i) 1 "" false false 100)
   ++ ((List.range 4).map fun i => mkRaw 2024 1 (22 + i) 0 "" false false 95))

/-- A September with one base day (volume 100) and one substitute-Chuseok day
(volume 50): the substitute-exclusion rule empties the `MID_AUTUMN` sample. -/
def exC3c : List Classified := normalize_calendar
  [mkRaw 2024 9 3 1 "" false false 100, mkRaw 2024 9 17 1 "설,추석" false false 50]

/-- A Wednesday, March 13, marked as festival with no keyword and no
public-holiday flag: outside both festival windows. -/
def dC4 : CalDay := ⟨⟨2024, 3, 13⟩, 2, "", false, true, 0⟩

/-- Two raw rows with the same date 2024-05-15. -/
def exC5 : List RawRow :=
  [mkRaw 2024 5 15 2 "" false false 10, mkRaw 2024 5 15 2 "" false false 20]

/-- A classified table with a duplicated date (both rows survive
normalization). -/
def exC6 : List Classified := normalize_calendar
  [mkRaw 2024 5 15 2 "" false false 10, mkRaw 2024 5 15 2 "" false false 20]

/-- A one-day classified table with a unique date. -/
def exC6w : List Classified := normalize_calendar [mkRaw 2024 5 15 2 "" false false 10]

/-- A one-day classified table (May 2024) for the empty-range check. -/
def exC7 : List Classified := normalize_calendar [mkRaw 2024 5 15 2 "" false false 10]

/-- January: base volume 100 and a public holiday of volume 93; February: a
base day only — so February's holiday cell is filled from the clamped global
fallback `min(0.93, cap)`. -/
def exC8 : List Classified := normalize_calendar
  [mkRaw 2024 1 2 1 "" false false 100, mkRaw 2024 1 10 2 "" true false 93,
   mkRaw 2024 2 6 1 "" false false 100]

/-- A September day whose `구분` contains both a Seollal and a Chuseok keyword:
it classifies as `공휴일_대체` with substitute reason `추`. -/
def dC10 : CalDay := ⟨⟨2024, 9, 17⟩, 1, "설,추석", false, false, 50⟩

/-- A table containing the substitute-Chuseok day `dC10` and a base day. -/
def exC10 : List Classified :=
  [classify ⟨⟨2024, 9, 3⟩, 1, "", false, false, 100⟩, classify dC10]

/-! ### Helper lemmas -/

theorem classify_day (r : CalDay) : (classify r).day = r := rfl

theorem mem_insertSorted {x a : ℚ} {l : List ℚ} :
    x ∈ insertSorted a l ↔ x = a ∨ x ∈ l := by
  induction l with
  | nil => simp [insertSorted]
  | cons y ys ih =>
    by_cases h : a ≤ y
    · simp [insertSorted, h]
    · simp [insertSorted, h, ih]
      tauto

theorem mem_sortQ {x : ℚ} {l : List ℚ} : x ∈ sortQ l ↔ x ∈ l := by
  induction l with
  | nil => simp [sortQ]
  | cons y ys ih => simp [sortQ, mem_insertSorted, ih]

theorem length_insertSorted (a : ℚ) (l : List ℚ) :
    (insertSorted a l).length = l.length + 1 := by
  induction l with
  | nil => rfl
  | cons y ys ih =>
    by_cases h : a ≤ y
    · simp [insertSorted, h]
    · simp [insertSorted, h, ih]

theorem length_sortQ (l : List ℚ) : (sortQ l).length = l.length := by
  induction l with
  | nil => rfl
  | cons y ys ih => simp [sortQ, length_insertSorted, ih]

theorem getD_all_eq {a : ℚ} : ∀ (s : List ℚ) (i : ℕ), (∀ x ∈ s, x = a) →
    i < s.length → s.getD i 0 = a
  | [], i, _, hi => absurd hi (by simp)
  | x :: s, 0, h, _ => h x (by simp)
  | x :: s, i + 1, h, hi =>
    getD_all_eq s i (fun y hy => h y (List.mem_cons_of_mem x hy))
      (Nat.lt_of_succ_lt_succ hi)

theorem median_all_eq {a : ℚ} {l : List ℚ} (hne : l ≠ [])
    (h : ∀ x ∈ l, x = a) : median l = a := by
  have hs : ∀ x ∈ sortQ l, x = a := fun x hx => h x (mem_sortQ.mp hx)
  have hlen : (sortQ l).length = l.length := length_sortQ l
  have hpos : 0 < l.length := List.length_pos.mpr hne
  unfold median
  by_cases hpar : l.length % 2 = 1
  · rw [if_pos hpar]
    exact getD_all_eq _ _ hs (by rw [hlen]; exact Nat.div_lt_self hpos (by norm_num))
  · rw [if_neg hpar]
    have h1 : (sortQ l).getD (l.length / 2 - 1) 0 = a :=
      getD_all_eq _ _ hs
        (by rw [hlen]
            exact lt_of_le_of_lt (Nat.sub_le _ _) (Nat.div_lt_self hpos (by norm_num)))
    have h2 : (sortQ l).getD (l.length / 2) 0 = a :=
      getD_all_eq _ _ hs (by rw [hlen]; exact Nat.div_lt_self hpos (by norm_num))
    rw [h1, h2]; ring

theorem ite_le_cap (x cap : ℚ) : (if x ≤ cap then x else cap) ≤ cap := by
  split
  · assumption
  · exact le_refl cap

theorem month_row_at_base (hs ig : Bool) (b : Cat) (days : List Classified)
    (m : ℕ) : month_row hs ig b days m b = none ∨
      month_row hs ig b days m b = some 1 := by
  unfold month_row
  by_cases h1 : month_slice days m = []
  · simp [h1]
  · by_cases h2 : hs = false ∨ cat_days (month_slice days m) b = []
    · simp [h1, h2]
    · simp [h1, h2]

/-! ### The claims -/

/-- Claim C5, counterexample: on an input with two rows carrying the same
date, normalization keeps both rows — the output is not duplicate-free. -/
theorem claim_C5_counterexample :
    ¬ (((normalize_calendar exC5).map fun c => c.day.date).Nodup) := by decide

/-- Claim C5, amended: normalization keeps one `CalendarDay` per input row
whose date parses, in input order — rows with duplicate dates are all
retained (no deduplication, hence no last-write-wins selection). -/
theorem claim_C5_theorem (rows : List RawRow) :
    (normalize_calendar rows).map (fun c => c.day.date)
      = rows.filterMap fun r => r.parsed.map fun p => p.date := by
  induction rows with
  | nil => rfl
  | cons r t ih =>
    cases h : r.parsed with
    | none =>
      simpa [normalize_calendar, to_calday, List.filterMap_cons, h] using ih
    | some p =>
      have ih' := ih
      simp only [normalize_calendar, to_calday, List.filterMap_cons, h,
        Option.map_some', List.map_cons] at ih' ⊢
      exact congrArg₂ List.cons rfl ih'

/-- Claim C7: when the reporting-range filter selects zero classified rows,
the reporting step stops with `EmptyResultError` and produces no records. -/
theorem claim_C7_theorem (days : List Classified) (ys ms ye me : ℕ)
    (Wm : ℕ → Cat → ℚ) (h : pred_filter days ys ms ye me = []) :
    run_report days ys ms ye me Wm = Except.error EDError.EmptyResultError := by
  simp [run_report, h]

/-- Witness for C7: a 2030 reporting range on a table whose only day is in
May 2024 selects nothing and errors out. -/
theorem claim_C7_witness :
    pred_filter exC7 2030 1 2030 12 = [] ∧
      run_report exC7 2030 1 2030 12 (fun _ _ => 1)
        = Except.error EDError.EmptyResultError :=
  ⟨by decide, claim_C7_theorem exC7 2030 1 2030 12 (fun _ _ => 1) (by decide)⟩

/-- Claim C8, counterexample: the default holiday ceiling is 0.90, not 0.95 —
on `exC8` the February holiday cell is clamped to 0.90 under the default,
while a 0.95 ceiling would leave it at 0.93. -/
theorem claim_C8_counterexample :
    CAP_HOLIDAY ≠ 95/100 ∧
      (compute_weights_monthly exC8 true).1 2 Cat.PUBLIC_HOLIDAY = 9/10 ∧
      (compute_weights_monthly exC8 true Cat.WEEKDAY_MIDWEEK (95/100) true).1 2
          Cat.PUBLIC_HOLIDAY = 93/100 := by
  have hrow : month_row true true Cat.WEEKDAY_MIDWEEK exC8 2 Cat.PUBLIC_HOLIDAY
      = none := rfl
  have hknown : (List.range' 1 12).filterMap
      (fun m => month_row true true Cat.WEEKDAY_MIDWEEK exC8 m Cat.PUBLIC_HOLIDAY)
      = [93/100] := rfl
  refine ⟨by norm_num [CAP_HOLIDAY], ?_, ?_⟩
  · show (month_row true true Cat.WEEKDAY_MIDWEEK exC8 2 Cat.PUBLIC_HOLIDAY).getD
      (global_fallback true true Cat.WEEKDAY_MIDWEEK CAP_HOLIDAY exC8
        Cat.PUBLIC_HOLIDAY) = 9/10
    rw [hrow]
    show global_fallback true true Cat.WEEKDAY_MIDWEEK CAP_HOLIDAY exC8
      Cat.PUBLIC_HOLIDAY = 9/10
    unfold global_fallback
    rw [hknown]
    norm_num [median, sortQ, insertSorted, CAP_HOLIDAY]
  · show (month_row true true Cat.WEEKDAY_MIDWEEK exC8 2 Cat.PUBLIC_HOLIDAY).getD
      (global_fallback true true Cat.WEEKDAY_MIDWEEK (95/100) exC8
        Cat.PUBLIC_HOLIDAY) = 93/100
    rw [hrow]
    show global_fallback true true Cat.WEEKDAY_MIDWEEK (95/100) exC8
      Cat.PUBLIC_HOLIDAY = 93/100
    unfold global_fallback
    rw [hknown]
    norm_num [median, sortQ, insertSorted]

/-- Claim C8, amended: when no ceiling is supplied, weight estimation uses
the default `CAP_HOLIDAY = 0.90` (not 0.95). -/
theorem claim_C8_theorem :
    CAP_HOLIDAY = 9/10 ∧
      ∀ (days : List Classified) (hs : Bool),
        compute_weights_monthly days hs
          = compute_weights_monthly days hs Cat.WEEKDAY_MIDWEEK (9/10) true :=
  ⟨by norm_num [CAP_HOLIDAY], fun _ _ => rfl⟩

/-- Claim C1, counterexample: a monthly holiday weight computed directly from
volume data is not clamped — a January whose holiday median is twice the base
median gets weight 2 > `CAP_HOLIDAY`. -/
theorem claim_C1_counterexample :
    ¬ ((compute_weights_monthly exC1 true).1 1 Cat.PUBLIC_HOLIDAY
        ≤ CAP_HOLIDAY) := by
  have h : (compute_weights_monthly exC1 true).1 1 Cat.PUBLIC_HOLIDAY
      = 200/100 := rfl
  rw [h]
  norm_num [CAP_HOLIDAY]

/-- Claim C1, amended: the holiday ceiling applies to the clamped global
fallback, i.e. to every holiday-family cell whose direct monthly ratio is
unknown (`NaN`); such filled cells never exceed the ceiling.  Cells computed
directly from volume data are not clamped (see the counterexample). -/
theorem claim_C1_theorem (days : List Classified) (hs ig : Bool) (b : Cat)
    (cap : ℚ) (m : ℕ) (c : Cat)
    (hc : c = Cat.PUBLIC_HOLIDAY ∨ c = Cat.LUNAR_NEW_YEAR ∨ c = Cat.MID_AUTUMN)
    (hcell : month_row hs ig b days m c = none) :
    (compute_weights_monthly days hs b cap ig).1 m c ≤ cap := by
  show (month_row hs ig b days m c).getD (global_fallback hs ig b cap days c) ≤ cap
  rw [hcell]
  show global_fallback hs ig b cap days c ≤ cap
  unfold global_fallback
  rw [if_pos hc]
  exact ite_le_cap _ cap

/-- Witness for C1: on the empty table every cell is unknown, and the filled
January `PUBLIC_HOLIDAY` weight (the clamped default 0.841) is below the
ceiling. -/
theorem claim_C1_witness :
    month_row true true Cat.WEEKDAY_MIDWEEK [] 1 Cat.PUBLIC_HOLIDAY = none ∧
      (compute_weights_monthly [] true).1 1 Cat.PUBLIC_HOLIDAY ≤ CAP_HOLIDAY :=
  ⟨by decide,
   claim_C1_theorem [] true true Cat.WEEKDAY_MIDWEEK CAP_HOLIDAY 1
     Cat.PUBLIC_HOLIDAY (Or.inl rfl) (by decide)⟩

/-- Claim C2: the filled monthly weight table assigns the base category
`WEEKDAY_MIDWEEK` weight exactly 1 in every month 1–12, for every input,
whether or not a volume column exists and whether or not the month has any
(base-category) days. -/
theorem claim_C2_theorem (days : List Classified) (hs : Bool) (cap : ℚ)
    (ig : Bool) (m : ℕ) (h1 : 1 ≤ m) (h2 : m ≤ 12) :
    (compute_weights_monthly days hs Cat.WEEKDAY_MIDWEEK cap ig).1 m
      Cat.WEEKDAY_MIDWEEK = 1 := by
  show (month_row hs ig Cat.WEEKDAY_MIDWEEK days m Cat.WEEKDAY_MIDWEEK).getD
    (global_fallback hs ig Cat.WEEKDAY_MIDWEEK cap days Cat.WEEKDAY_MIDWEEK) = 1
  rcases month_row_at_base hs ig Cat.WEEKDAY_MIDWEEK days m with hrow | hrow
  · rw [hrow]
    show global_fallback hs ig Cat.WEEKDAY_MIDWEEK cap days Cat.WEEKDAY_MIDWEEK = 1
    unfold global_fallback
    rw [if_neg (by simp)]
    by_cases hk : (List.range' 1 12).filterMap
        (fun mo => month_row hs ig Cat.WEEKDAY_MIDWEEK days mo Cat.WEEKDAY_MIDWEEK)
        = []
    · simp [hk, DEFAULT_WEIGHTS]
    · rw [if_neg hk]
      refine median_all_eq hk ?_
      intro x hx
      rcases List.mem_filterMap.mp hx with ⟨mo, _, hmo⟩
      rcases month_row_at_base hs ig Cat.WEEKDAY_MIDWEEK days mo with h' | h'
      · rw [h'] at hmo; cases hmo
      · rw [h'] at hmo; injection hmo with h''; exact h''.symm
  · rw [hrow]; rfl

/-- Witness for C2: January of the empty table (no volume column case is also
exercised: `hs = false`). -/
theorem claim_C2_witness :
    1 ≤ 1 ∧ 1 ≤ 12 ∧
      (compute_weights_monthly [] false Cat.WEEKDAY_MIDWEEK CAP_HOLIDAY true).1 1
        Cat.WEEKDAY_MIDWEEK = 1 :=
  ⟨le_refl 1, by norm_num,
   claim_C2_theorem [] false CAP_HOLIDAY true 1 (le_refl 1) (by norm_num)⟩

theorem month_row_ratio (ig : Bool) (b : Cat) (days : List Classified) (m : ℕ)
    (c : Cat) (hcb : c ≠ b)
    (hbase : cat_days (month_slice days m) b ≠ [])
    (hsample : sample_rows ig (month_slice days m) c ≠ [])
    (hpos : 0 < base_med b days m) :
    month_row true ig b days m c
      = some (median ((sample_rows ig (month_slice days m) c).map vol)
          / base_med b days m) := by
  have hsub : month_slice days m ≠ [] := by
    intro hnil
    exact hbase (by rw [cat_days, hnil]; rfl)
  have hmap : (sample_rows ig (month_slice days m) c).map vol ≠ [] := by
    simpa [List.map_eq_nil_iff] using hsample
  simp only [month_row]
  rw [if_neg hsub, if_neg (by simp [hbase]), if_neg hcb, if_pos ⟨hmap, hpos⟩]

/-- Claim C3, counterexample: in a September whose only `MID_AUTUMN` day is a
substitute holiday (카테고리_SRC `공휴일_대체`), the monthly weight is the global
fallback 0.799, not the median ratio 50/100 claimed for "category-c days". -/
theorem claim_C3_counterexample :
    cat_days (month_slice exC3c 9) Cat.WEEKDAY_MIDWEEK ≠ [] ∧
      cat_days (month_slice exC3c 9) Cat.MID_AUTUMN ≠ [] ∧
      0 < base_med Cat.WEEKDAY_MIDWEEK exC3c 9 ∧
      ¬ ((compute_weights_monthly exC3c true).1 9 Cat.MID_AUTUMN
          = median ((cat_days (month_slice exC3c 9) Cat.MID_AUTUMN).map vol)
              / base_med Cat.WEEKDAY_MIDWEEK exC3c 9) := by
  have hb : base_med Cat.WEEKDAY_MIDWEEK exC3c 9 = 100 := rfl
  have hm : median ((cat_days (month_slice exC3c 9) Cat.MID_AUTUMN).map vol)
      = 50 := rfl
  have hval : (compute_weights_monthly exC3c true).1 9 Cat.MID_AUTUMN
      = global_fallback true true Cat.WEEKDAY_MIDWEEK CAP_HOLIDAY exC3c
          Cat.MID_AUTUMN := rfl
  have hknown : (List.range' 1 12).filterMap
      (fun m => month_row true true Cat.WEEKDAY_MIDWEEK exC3c m Cat.MID_AUTUMN)
      = [] := rfl
  refine ⟨by decide, by decide, by rw [hb]; norm_num, ?_⟩
  rw [hval, hm, hb]
  unfold global_fallback
  rw [hknown]
  norm_num [DEFAULT_WEIGHTS, CAP_HOLIDAY]

/-- Claim C3, amended: for a month with a volume column, at least one
base-category day and positive base median, the weight of a non-base category
`c` with a nonempty weight sample is `median(sample)/base_med` — where for
`LUNAR_NEW_YEAR`/`MID_AUTUMN` the sample excludes days originally classified
as substitute public holidays (counterexample above); for all other
categories the sample is exactly the category-`c` days of the month, as
claimed.  The spec's January example (20 base days at 100, 4 edge days at 95,
weight 0.95) is the witness. -/
theorem claim_C3_theorem (days : List Classified) (cap : ℚ) (ig : Bool)
    (m : ℕ) (c : Cat) (hcb : c ≠ Cat.WEEKDAY_MIDWEEK)
    (hbase : cat_days (month_slice days m) Cat.WEEKDAY_MIDWEEK ≠ [])
    (hsample : sample_rows ig (month_slice days m) c ≠ [])
    (hpos : 0 < base_med Cat.WEEKDAY_MIDWEEK days m) :
    (compute_weights_monthly days true Cat.WEEKDAY_MIDWEEK cap ig).1 m c
      = median ((sample_rows ig (month_slice days m) c).map vol)
          / base_med Cat.WEEKDAY_MIDWEEK days m := by
  show (month_row true ig Cat.WEEKDAY_MIDWEEK days m c).getD
    (global_fallback true ig Cat.WEEKDAY_MIDWEEK cap days c) = _
  rw [month_row_ratio ig Cat.WEEKDAY_MIDWEEK days m c hcb hbase hsample hpos]
  rfl

/-- Witness for C3: the spec's own example — January, 20 `WEEKDAY_MIDWEEK`
days of median volume 100 and 4 `WEEKDAY_EDGE` days of median volume 95 —
yields monthly weight 19/20 = 0.95 for `WEEKDAY_EDGE`. -/
theorem claim_C3_witness :
    Cat.WEEKDAY_EDGE ≠ Cat.WEEKDAY_MIDWEEK ∧
      cat_days (month_slice exC3w 1) Cat.WEEKDAY_MIDWEEK ≠ [] ∧
      sample_rows true (month_slice exC3w 1) Cat.WEEKDAY_EDGE ≠ [] ∧
      0 < base_med Cat.WEEKDAY_MIDWEEK exC3w 1 ∧
      (compute_weights_monthly exC3w true Cat.WEEKDAY_MIDWEEK CAP_HOLIDAY true).1 1
        Cat.WEEKDAY_EDGE = 19/20 := by
  have hb : base_med Cat.WEEKDAY_MIDWEEK exC3w 1 = (100 + 100) / 2 := rfl
  have hpos : 0 < base_med Cat.WEEKDAY_MIDWEEK exC3w 1 := by rw [hb]; norm_num
  refine ⟨by decide, by decide, by decide, hpos, ?_⟩
  have h := claim_C3_theorem exC3w CAP_HOLIDAY true 1 Cat.WEEKDAY_EDGE
    (by decide) (by decide) (by decide) hpos
  rw [h, hb]
  have hs : median ((sample_rows true (month_slice exC3w 1) Cat.WEEKDAY_EDGE).map vol)
      = (95 + 95) / 2 := rfl
  rw [hs]
  norm_num

/-- Claim C4, counterexample: a festival-flagged Wednesday, March 13 (no
keyword, outside both windows, `공휴일여부` false) classifies as
`WEEKDAY_MIDWEEK`, not `PUBLIC_HOLIDAY`. -/
theorem claim_C4_counterexample :
    dC4.fest = true ∧
      contains_any dC4.gubun HOL_KW_seol = false ∧
      contains_any dC4.gubun HOL_KW_chu = false ∧
      in_lny_window dC4.date.month dC4.date.day = false ∧
      dC4.date.month ≠ 9 ∧
      base_category dC4 ≠ Cat.PUBLIC_HOLIDAY := by decide

/-- Claim C4, amended: a festival-flagged day with no Seollal/Chuseok keyword
falling outside both windows does not short-circuit to `PUBLIC_HOLIDAY`: the
classifier falls through to the later rules, yielding `PUBLIC_HOLIDAY` exactly
when the public-holiday flag or a temporary-holiday keyword is present, and
the weekend/weekday classification otherwise. -/
theorem claim_C4_theorem (r : CalDay) (hfest : r.fest = true)
    (hseol : contains_any r.gubun HOL_KW_seol = false)
    (hchu : contains_any r.gubun HOL_KW_chu = false)
    (hwin : in_lny_window r.date.month r.date.day = false)
    (hnine : r.date.month ≠ 9) :
    base_category r = (if r.pub || contains_any r.gubun TEMP_KW then
      Cat.PUBLIC_HOLIDAY else weekday_rule (yoil r.dow)) := by
  unfold base_category
  simp [hseol, hchu, hwin, hnine]

theorem sum_cat_counts (l : List Classified) :
    (CATS.map fun c => (cat_days l c).length).sum = l.length := by
  induction l with
  | nil => rfl
  | cons r t ih =>
    have hexp : ∀ c : Cat, (cat_days (r :: t) c).length
        = (if r.cnt = c then 1 else 0) + (cat_days t c).length := by
      intro c
      by_cases h : r.cnt = c
      · simp [cat_days, List.filter_cons, h]
        omega
      · simp [cat_days, List.filter_cons, h]
    simp only [CATS, List.map_cons, List.map_nil, List.sum_cons,
      List.sum_nil] at ih ⊢
    rw [hexp, hexp, hexp, hexp, hexp, hexp, hexp]
    cases hr : r.cnt <;> simp [hr] <;> omega

theorem slice_dates_nodup (days : List Classified) (y m : ℕ)
    (hnd : (days.map fun r => r.day.date).Nodup) :
    ((slice_ym days y m).map fun r => r.day.date).Nodup :=
  hnd.sublist ((List.filter_sublist days).map _)

/-- Claim C6, counterexample: with a duplicated date in the classified table,
the May 2024 record has category counts summing to 2 while the distinct-date
count `월일수` is 1. -/
theorem claim_C6_counterexample :
    ¬ ((CATS.map ((effective_days_by_month exC6 fun _ _ => 1).getD 0
          EDRecord.default0).counts).sum
        = ((effective_days_by_month exC6 fun _ _ => 1).getD 0
            EDRecord.default0).monthDays) := by decide

/-- Claim C6, amended: when the input's dates are pairwise distinct (which
normalization does not enforce — see the counterexample), every aggregation
record's seven per-category counts sum to its total distinct-date count
`월일수`.  (In general the sum equals the number of rows of the month slice,
which can exceed the distinct-date count.) -/
theorem claim_C6_theorem (days : List Classified) (Wm : ℕ → Cat → ℚ)
    (hnd : (days.map fun r => r.day.date).Nodup) (i : ℕ)
    (hi : i < (effective_days_by_month days Wm).length) :
    (CATS.map ((effective_days_by_month days Wm).getD i
        EDRecord.default0).counts).sum
      = ((effective_days_by_month days Wm).getD i EDRecord.default0).monthDays := by
  rw [List.getD_eq_getElem _ _ hi]
  have hk : i < (ym_keys days).length := by
    simpa [effective_days_by_month] using hi
  have hget : (effective_days_by_month days Wm)[i]
      = mk_record days Wm ((ym_keys days).get ⟨i, hk⟩).1
          ((ym_keys days).get ⟨i, hk⟩).2 := by
    simp [effective_days_by_month]
  rw [hget]
  set y := ((ym_keys days).get ⟨i, hk⟩).1
  set m := ((ym_keys days).get ⟨i, hk⟩).2
  show (CATS.map fun c => (cat_days (slice_ym days y m) c).length).sum
    = (((slice_ym days y m).map fun r => r.day.date).dedup).length
  rw [List.dedup_eq_self.mpr (slice_dates_nodup days y m hnd), List.length_map]
  exact sum_cat_counts _

/-- Witness for C6: a one-row table (distinct dates trivially) whose single
record has counts summing to its `월일수`. -/
theorem claim_C6_witness :
    ((exC6w.map fun r => r.day.date).Nodup) ∧
      0 < (effective_days_by_month exC6w fun _ _ => 1).length ∧
      (CATS.map ((effective_days_by_month exC6w fun _ _ => 1).getD 0
          EDRecord.default0).counts).sum
        = ((effective_days_by_month exC6w fun _ _ => 1).getD 0
            EDRecord.default0).monthDays :=
  ⟨by decide, by decide,
   claim_C6_theorem exC6w (fun _ _ => 1) (by decide) 0 (by decide)⟩

/-- Witness for C4: the March 13 festival day falls through to the weekday
rules (and classifies as `WEEKDAY_MIDWEEK`). -/
theorem claim_C4_witness :
    dC4.fest = true ∧
      contains_any dC4.gubun HOL_KW_seol = false ∧
      contains_any dC4.gubun HOL_KW_chu = false ∧
      in_lny_window dC4.date.month dC4.date.day = false ∧
      dC4.date.month ≠ 9 ∧
      base_category dC4 = (if dC4.pub || contains_any dC4.gubun TEMP_KW then
        Cat.PUBLIC_HOLIDAY else weekday_rule (yoil dC4.dow)) :=
  ⟨rfl, rfl, rfl, rfl, by decide,
   claim_C4_theorem dC4 rfl rfl rfl rfl (by decide)⟩

theorem weekday_rule_range (y : String) :
    weekday_rule y = Cat.SATURDAY ∨ weekday_rule y = Cat.SUNDAY ∨
      weekday_rule y = Cat.WEEKDAY_MIDWEEK ∨ weekday_rule y = Cat.WEEKDAY_EDGE := by
  unfold weekday_rule
  split_ifs <;> simp

theorem not_of_bnot_decide {p : Prop} [Decidable p] (h : (!decide p) = true) :
    ¬p := by
  intro hp
  rw [decide_eq_true hp] at h
  simp at h

theorem base_category_lny (r : CalDay)
    (h : base_category r = Cat.LUNAR_NEW_YEAR) :
    in_lny_window r.date.month r.date.day = true ∧
      ¬(r.date.month = 1 ∧ r.date.day = 1) := by
  unfold base_category at h
  by_cases c1 : contains_any r.gubun HOL_KW_seol = true
  · rw [if_pos c1] at h
    by_cases c2 : (in_lny_window r.date.month r.date.day &&
        !(decide (r.date.month = 1 ∧ r.date.day = 1))) = true
    · rw [Bool.and_eq_true] at c2
      exact ⟨c2.1, not_of_bnot_decide c2.2⟩
    · rw [if_neg c2] at h
      exact absurd h (by decide)
  · rw [if_neg c1] at h
    by_cases c3 : contains_any r.gubun HOL_KW_chu = true
    · rw [if_pos c3] at h
      by_cases c4 : r.date.month = 9
      · rw [if_pos c4] at h
        exact absurd h (by decide)
      · rw [if_neg c4] at h
        exact absurd h (by decide)
    · rw [if_neg c3] at h
      by_cases c5 : (r.fest && (in_lny_window r.date.month r.date.day &&
          !(decide (r.date.month = 1 ∧ r.date.day = 1)))) = true
      · rw [Bool.and_eq_true, Bool.and_eq_true] at c5
        exact ⟨c5.2.1, not_of_bnot_decide c5.2.2⟩
      · rw [if_neg c5] at h
        by_cases c6 : (r.fest && decide (r.date.month = 9)) = true
        · rw [if_pos c6] at h
          exact absurd h (by decide)
        · rw [if_neg c6] at h
          by_cases c7 : (r.pub || contains_any r.gubun TEMP_KW) = true
          · rw [if_pos c7] at h
            exact absurd h (by decide)
          · rw [if_neg c7] at h
            rcases weekday_rule_range (yoil r.dow) with h' | h' | h' | h' <;>
              rw [h'] at h <;> exact absurd h (by decide)

theorem base_category_mid (r : CalDay)
    (h : base_category r = Cat.MID_AUTUMN) : r.date.month = 9 := by
  unfold base_category at h
  by_cases c1 : contains_any r.gubun HOL_KW_seol = true
  · rw [if_pos c1] at h
    by_cases c2 : (in_lny_window r.date.month r.date.day &&
        !(decide (r.date.month = 1 ∧ r.date.day = 1))) = true
    · rw [if_pos c2] at h
      exact absurd h (by decide)
    · rw [if_neg c2] at h
      exact absurd h (by decide)
  · rw [if_neg c1] at h
    by_cases c3 : contains_any r.gubun HOL_KW_chu = true
    · rw [if_pos c3] at h
      by_cases c4 : r.date.month = 9
      · exact c4
      · rw [if_neg c4] at h
        exact absurd h (by decide)
    · rw [if_neg c3] at h
      by_cases c5 : (r.fest && (in_lny_window r.date.month r.date.day &&
          !(decide (r.date.month = 1 ∧ r.date.day = 1)))) = true
      · rw [if_pos c5] at h
        exact absurd h (by decide)
      · rw [if_neg c5] at h
        by_cases c6 : (r.fest && decide (r.date.month = 9)) = true
        · rw [Bool.and_eq_true] at c6
          exact of_decide_eq_true c6.2
        · rw [if_neg c6] at h
          by_cases c7 : (r.pub || contains_any r.gubun TEMP_KW) = true
          · rw [if_pos c7] at h
            exact absurd h (by decide)
          · rw [if_neg c7] at h
            rcases weekday_rule_range (yoil r.dow) with h' | h' | h' | h' <;>
              rw [h'] at h <;> exact absurd h (by decide)

theorem sub_reason_ne_seol (r : CalDay) :
    sub_reason r (base_category r) ≠ some "설" := by
  intro h
  unfold sub_reason at h
  by_cases h1 : base_category r ≠ Cat.PUBLIC_HOLIDAY
  · rw [if_pos h1] at h
    exact Option.noConfusion h
  · rw [if_neg h1] at h
    have hbase : base_category r = Cat.PUBLIC_HOLIDAY := not_not.mp h1
    by_cases h2 : (contains_any r.gubun HOL_KW_seol &&
        (in_lny_window r.date.month r.date.day &&
          !(decide (r.date.month = 1 ∧ r.date.day = 1)))) = true
    · rw [Bool.and_eq_true] at h2
      have hlny : base_category r = Cat.LUNAR_NEW_YEAR := by
        unfold base_category
        rw [if_pos h2.1, if_pos h2.2]
      rw [hbase] at hlny
      exact absurd hlny (by decide)
    · rw [if_neg h2] at h
      by_cases h3 : (contains_any r.gubun HOL_KW_chu &&
          decide (r.date.month = 9)) = true
      · rw [if_pos h3] at h
        injection h with h'
        exact absurd h' (by decide)
      · rw [if_neg h3] at h
        exact Option.noConfusion h

theorem sub_reason_chu_month (r : CalDay)
    (h : sub_reason r (base_category r) = some "추") : r.date.month = 9 := by
  unfold sub_reason at h
  by_cases h1 : base_category r ≠ Cat.PUBLIC_HOLIDAY
  · rw [if_pos h1] at h
    exact Option.noConfusion h
  · rw [if_neg h1] at h
    by_cases h2 : (contains_any r.gubun HOL_KW_seol &&
        (in_lny_window r.date.month r.date.day &&
          !(decide (r.date.month = 1 ∧ r.date.day = 1)))) = true
    · rw [if_pos h2] at h
      injection h with h'
      exact absurd h' (by decide)
    · rw [if_neg h2] at h
      by_cases h3 : (contains_any r.gubun HOL_KW_chu &&
          decide (r.date.month = 9)) = true
      · rw [Bool.and_eq_true] at h3
        exact of_decide_eq_true h3.2
      · rw [if_neg h3] at h
        exact Option.noConfusion h

theorem pre_oct_src_lny (r : CalDay) (h : (pre_oct r).1 = Cat.LUNAR_NEW_YEAR) :
    in_lny_window r.date.month r.date.day = true ∧
      ¬(r.date.month = 1 ∧ r.date.day = 1) := by
  unfold pre_oct jan1_override at h
  by_cases hj : r.date.month = 1 ∧ r.date.day = 1
  · rw [if_pos hj] at h
    exact absurd h (by decide)
  · rw [if_neg hj] at h
    exact base_category_lny r h

theorem pre_oct_src_mid (r : CalDay) (h : (pre_oct r).1 = Cat.MID_AUTUMN) :
    r.date.month = 9 := by
  unfold pre_oct jan1_override at h
  by_cases hj : r.date.month = 1 ∧ r.date.day = 1
  · rw [if_pos hj] at h
    exact absurd h (by decide)
  · rw [if_neg hj] at h
    exact base_category_mid r h

theorem pre_oct_reason_ne_seol (r : CalDay) : (pre_oct r).2 ≠ some "설" := by
  intro h
  unfold pre_oct jan1_override at h
  by_cases hj : r.date.month = 1 ∧ r.date.day = 1
  · rw [if_pos hj] at h
    exact Option.noConfusion h
  · rw [if_neg hj] at h
    exact sub_reason_ne_seol r h

theorem pre_oct_reason_chu (r : CalDay) (h : (pre_oct r).2 = some "추") :
    r.date.month = 9 := by
  unfold pre_oct jan1_override at h
  by_cases hj : r.date.month = 1 ∧ r.date.day = 1
  · rw [if_pos hj] at h
    exact Option.noConfusion h
  · rw [if_neg hj] at h
    exact sub_reason_chu_month r h

theorem oct_override_pre_oct (r : CalDay) :
    classify_src_reason r = pre_oct r := by
  unfold classify_src_reason oct_override
  cases hmask : oct_mask r with
  | false => simp
  | true =>
    have hm10 : r.date.month = 10 := by
      unfold oct_mask at hmask
      rw [Bool.and_eq_true] at hmask
      exact of_decide_eq_true hmask.1
    have hsrc : ¬((pre_oct r).1 = Cat.MID_AUTUMN) := fun hs => by
      have := pre_oct_src_mid r hs
      omega
    have hrs : ¬((pre_oct r).2 = some "추") := fun hs => by
      have := pre_oct_reason_chu r hs
      omega
    simp [hsrc, hrs]

/-- Claim C9: whenever the final counting category is `LUNAR_NEW_YEAR` the
date lies in the Jan 20–Feb 20 window and is not January 1st; whenever it is
`MID_AUTUMN` the month is September; consequently the hardcoded October
2026/2027 reclassification step is the identity on every day. -/
theorem claim_C9_theorem (r : CalDay) :
    ((classify r).cnt = Cat.LUNAR_NEW_YEAR →
      in_lny_window r.date.month r.date.day = true ∧
        ¬(r.date.month = 1 ∧ r.date.day = 1))
    ∧ ((classify r).cnt = Cat.MID_AUTUMN → r.date.month = 9)
    ∧ classify_src_reason r = pre_oct r := by
  refine ⟨?_, ?_, oct_override_pre_oct r⟩
  · intro h
    have h' : cat_for_count (classify_src_reason r) = Cat.LUNAR_NEW_YEAR := h
    rw [oct_override_pre_oct r] at h'
    unfold cat_for_count at h'
    by_cases h1 : (pre_oct r).1 = Cat.PUBLIC_HOLIDAY ∧ (pre_oct r).2 = some "설"
    · exact absurd h1.2 (pre_oct_reason_ne_seol r)
    · rw [if_neg h1] at h'
      by_cases h2 : (pre_oct r).1 = Cat.PUBLIC_HOLIDAY ∧ (pre_oct r).2 = some "추"
      · rw [if_pos h2] at h'
        exact absurd h' (by decide)
      · rw [if_neg h2] at h'
        exact pre_oct_src_lny r h'
  · intro h
    have h' : cat_for_count (classify_src_reason r) = Cat.MID_AUTUMN := h
    rw [oct_override_pre_oct r] at h'
    unfold cat_for_count at h'
    by_cases h1 : (pre_oct r).1 = Cat.PUBLIC_HOLIDAY ∧ (pre_oct r).2 = some "설"
    · exact absurd h1.2 (pre_oct_reason_ne_seol r)
    · rw [if_neg h1] at h'
      by_cases h2 : (pre_oct r).1 = Cat.PUBLIC_HOLIDAY ∧ (pre_oct r).2 = some "추"
      · exact pre_oct_reason_chu r h2.2
      · rw [if_neg h2] at h'
        exact pre_oct_src_mid r h'

/-- Claim C10: a day originally classified as a substitute public holiday with
a Seollal/Chuseok reason counts under `LUNAR_NEW_YEAR`/`MID_AUTUMN` in the
aggregation counts, yet is excluded from the volume sample used for that
category's monthly weight when the exclude-substitute option (default) is on. -/
theorem claim_C10_theorem (d : CalDay) (days : List Classified) (rs : String)
    (hsrc : (classify d).src = Cat.PUBLIC_HOLIDAY)
    (hreason : (classify d).reason = some rs)
    (hrs : rs = "설" ∨ rs = "추")
    (hmem : classify d ∈ days) :
    ((classify d).cnt = Cat.LUNAR_NEW_YEAR ∨ (classify d).cnt = Cat.MID_AUTUMN)
    ∧ classify d ∉ sample_rows true (month_slice days d.date.month)
        ((classify d).cnt)
    ∧ classify d ∈ count_rows days d.date.year d.date.month ((classify d).cnt) := by
  have hs1 : (classify_src_reason d).1 = Cat.PUBLIC_HOLIDAY := hsrc
  have hr1 : (classify_src_reason d).2 = some rs := hreason
  have hcnt : (classify d).cnt = Cat.LUNAR_NEW_YEAR ∨
      (classify d).cnt = Cat.MID_AUTUMN := by
    show cat_for_count (classify_src_reason d) = _ ∨
      cat_for_count (classify_src_reason d) = _
    rcases hrs with h | h
    · left
      unfold cat_for_count
      rw [if_pos ⟨hs1, by rw [hr1, h]⟩]
    · right
      unfold cat_for_count
      have hne : ¬((classify_src_reason d).1 = Cat.PUBLIC_HOLIDAY ∧
          (classify_src_reason d).2 = some "설") := by
        intro hc
        have h2 := hc.2
        rw [hr1] at h2
        injection h2 with h''
        rw [h] at h''
        exact absurd h'' (by decide)
      rw [if_neg hne, if_pos ⟨hs1, by rw [hr1, h]⟩]
  refine ⟨hcnt, ?_, ?_⟩
  · intro hmem'
    unfold sample_rows at hmem'
    rw [if_pos ⟨rfl, hcnt⟩] at hmem'
    have hflt := (List.mem_filter.mp hmem').2
    exact absurd hsrc (of_decide_eq_true hflt)
  · refine List.mem_filter.mpr ⟨List.mem_filter.mpr ⟨hmem, ?_⟩, ?_⟩
    · exact decide_eq_true ⟨rfl, rfl⟩
    · exact decide_eq_true rfl

/-- Witness for C10: the substitute-Chuseok day `dC10` (reason `추`) counts as
`MID_AUTUMN` in the September counts of `exC10` but is not in the
`MID_AUTUMN` weight sample. -/
theorem claim_C10_witness :
    (classify dC10).src = Cat.PUBLIC_HOLIDAY ∧
      (classify dC10).reason = some "추" ∧
      classify dC10 ∈ exC10 ∧
      (((classify dC10).cnt = Cat.LUNAR_NEW_YEAR ∨
          (classify dC10).cnt = Cat.MID_AUTUMN)
        ∧ classify dC10 ∉ sample_rows true (month_slice exC10 dC10.date.month)
            ((classify dC10).cnt)
        ∧ classify dC10 ∈ count_rows exC10 dC10.date.year dC10.date.month
            ((classify dC10).cnt)) :=
  ⟨by decide, by decide, by decide,
   claim_C10_theorem dC10 exC10 "추" (by decide) (by decide) (Or.inr rfl)
     (by decide)⟩

end EffectiveDays
